import Mathlib

/-!
Verification of the auction auto-close core of `labs-auction-goexpert`
(`internal/infra/database/auction/create_auction.go`).

The embedding models durations and absolute times as `Int` nanoseconds
(Go's `time.Duration` is an `int64` count of nanoseconds), unix
timestamps as `Int` seconds, and the MongoDB collection as a
`List AuctionEntityMongo`.  The single store operation the sweep uses,
`UpdateMany` with filter `{status: Active, timestamp: {$lte: threshold}}`
and update `{$set: {status: Completed}}`, is modelled as a map over the
list together with the count of matched (hence modified) documents; a
store failure is modelled by a boolean and leaves the list untouched,
exactly as the code does when `UpdateMany` returns an error.
-/

/-- Modelled from the spec: `auction_entity.AuctionStatus` lives outside
the provided source tree; the spec gives states `{Active(0), Completed(1)}`. -/
inductive AuctionStatus where
  | Active
  | Completed
  deriving DecidableEq, Repr

/-- `AuctionEntityMongo` from `create_auction.go` (lines 16-24).
`ProductCondition` is opaque to the scheduler and modelled as `Nat`;
`Timestamp` is the unix-seconds `int64`. -/
structure AuctionEntityMongo where
  id : String
  productName : String
  category : String
  description : String
  condition : Nat
  status : AuctionStatus
  timestamp : Int
  deriving DecidableEq, Repr

/-- One nanosecond count of Go's `time.Second`. -/
def timeSecond : Int := 1000000000

/-- One nanosecond count of Go's `time.Minute`. -/
def timeMinute : Int := 60 * timeSecond

/-- Whether a character is an ASCII decimal digit (Go `'0' <= c && c <= '9'`). -/
def isDigitChar (c : Char) : Bool := '0' ≤ c && c ≤ '9'

/-- Numeric value of a digit string (Go `leadingInt`). -/
def digitsVal (ds : List Char) : Nat :=
  ds.foldl (fun acc c => acc * 10 + (c.toNat - '0'.toNat)) 0

/-- The `unitMap` of Go's `time.ParseDuration`: nanoseconds per unit suffix. -/
def unitMap (u : List Char) : Option Nat :=
  if u = ['n', 's'] then some 1
  else if u = ['u', 's'] then some 1000
  else if u = ['µ', 's'] then some 1000
  else if u = ['μ', 's'] then some 1000
  else if u = ['m', 's'] then some 1000000
  else if u = ['s'] then some 1000000000
  else if u = ['m'] then some 60000000000
  else if u = ['h'] then some 3600000000000
  else none

/-- The main loop of Go's `time.ParseDuration` after the sign and the
`"0"` special case: repeatedly consume a nonempty digit run and a
nonempty unit, rejecting anything else.  Restricted to integer values:
a fractional component (a `'.'`) is rejected where Go would parse it,
and the int64-overflow rejection is omitted; no configuration value in
this repository has either.  Each iteration consumes at least two
characters, so `fuel` initialised to the length of the input always
suffices. -/
def parseDurationLoop : Nat → List Char → Option Nat
  | _, [] => some 0
  | 0, _ :: _ => none
  | fuel + 1, s =>
    let digits := s.takeWhile isDigitChar
    let rest := s.dropWhile isDigitChar
    if digits.isEmpty then none
    else if rest.head? = some '.' then none
    else
      let unit := rest.takeWhile fun c => !isDigitChar c && c ≠ '.'
      let rest2 := rest.dropWhile fun c => !isDigitChar c && c ≠ '.'
      if unit.isEmpty then none
      else
        match unitMap unit with
        | none => none
        | some u => (parseDurationLoop fuel rest2).map fun acc => digitsVal digits * u + acc

/-- Go's `time.ParseDuration` (integer-valued subset, see
`parseDurationLoop`): optional leading `-`/`+`, the `"0"` special case,
then one or more number+unit segments; `none` models the error return. -/
def parseDuration (s : String) : Option Int :=
  match s.data with
  | [] => none
  | c :: rest =>
    let neg := c = '-'
    let body := if c = '-' ∨ c = '+' then rest else c :: rest
    if body = ['0'] then some 0
    else if body = [] then none
    else
      match parseDurationLoop body.length body with
      | none => none
      | some n => some (if neg then -(n : Int) else (n : Int))

/-- `getAuctionInterval` from `create_auction.go` (lines 111-119): the
`AUCTION_INTERVAL` environment value (`""` when absent, as `os.Getenv`
reports) is parsed; on any parse error the default `time.Minute * 5` is
returned.  The function is total: it never raises an error. -/
def getAuctionInterval (envAuctionInterval : String) : Int :=
  match parseDuration envAuctionInterval with
  | none => timeMinute * 5
  | some duration => duration

/-- The tick cadence computed at the top of `startAuctionCloser`
(lines 66-71): `auctionInterval / 2` (Go `int64` division truncates
toward zero, hence `Int.tdiv`), floored at one second. -/
def checkInterval (auctionInterval : Int) : Int :=
  let c := Int.tdiv auctionInterval 2
  if c < timeSecond then timeSecond else c

/-- `Time.Unix()` of an absolute time held as nanoseconds since the
epoch: the floor of division by 10⁹. -/
def unixSeconds (tNanos : Int) : Int := Int.ediv tNanos 1000000000

/-- `expirationThreshold := time.Now().Add(-ar.auctionInterval).Unix()`
(line 89). -/
def expirationThreshold (nowNanos auctionInterval : Int) : Int :=
  unixSeconds (nowNanos - auctionInterval)

/-- The `filter` document of `closeExpiredAuctions` (lines 91-94):
`status = Active` and `timestamp $lte threshold`. -/
def matchesCloseFilter (threshold : Int) (a : AuctionEntityMongo) : Bool :=
  a.status == AuctionStatus.Active && decide (a.timestamp ≤ threshold)

/-- The `update` document (lines 96-98): `$set {status: Completed}`. -/
def setCompleted (a : AuctionEntityMongo) : AuctionEntityMongo :=
  { a with status := AuctionStatus.Completed }

/-- The store's `UpdateMany(filter, update)` round-trip: every matching
document gets the update applied, every other document is untouched, and
the number of modified documents is returned (every match here is
modified, since a matching document is `Active` and is set `Completed`). -/
def updateManyClose (threshold : Int) (db : List AuctionEntityMongo) :
    List AuctionEntityMongo × Nat :=
  (db.map fun a => if matchesCloseFilter threshold a then setCompleted a else a,
   db.countP (matchesCloseFilter threshold))

/-- `closeExpiredAuctions` (lines 88-109): compute the threshold, issue
the single conditional batch update; when the store reports an error
(`storeFails`), log and return with the collection untouched and no
modified count (`none`); otherwise the modified count is logged and
returned. -/
def closeExpiredAuctions (auctionInterval nowNanos : Int) (storeFails : Bool)
    (db : List AuctionEntityMongo) : List AuctionEntityMongo × Option Nat :=
  if storeFails then (db, none)
  else
    let r := updateManyClose (expirationThreshold nowNanos auctionInterval) db
    (r.1, some r.2)

/-- One observable event of the `startAuctionCloser` loop: the lifecycle
context is cancelled, or the ticker fires at absolute time `nowNanos`
with the store healthy or failing for that sweep. -/
inductive LoopEvent where
  | ctxDone
  | tick (nowNanos : Int) (storeFails : Bool)
  deriving DecidableEq, Repr

/-- The `for { select { case <-ctx.Done(): return; case <-ticker.C: ... } }`
loop of `startAuctionCloser` (lines 76-83), as a fold of the collection
state over the event trace: a tick runs one complete sweep (the sweep is
a single atomic store request, so an in-flight sweep always finishes),
and `ctxDone` returns, after which no event is ever processed. -/
def startAuctionCloser (auctionInterval : Int) (db : List AuctionEntityMongo) :
    List LoopEvent → List AuctionEntityMongo
  | [] => db
  | LoopEvent.ctxDone :: _ => db
  | LoopEvent.tick nowNanos storeFails :: rest =>
    startAuctionCloser auctionInterval
      (closeExpiredAuctions auctionInterval nowNanos storeFails db).1 rest

/-- An operation of this core touching the collection: `CreateAuction`
(lines 42-61, an `InsertOne` which appends one document, or fails leaving
the collection untouched) or one sweep. -/
inductive CoreOp where
  | createAuction (a : AuctionEntityMongo) (storeFails : Bool)
  | sweep (nowNanos : Int) (storeFails : Bool)

/-- Effect of one core operation on the collection. -/
def applyCoreOp (auctionInterval : Int) (db : List AuctionEntityMongo) :
    CoreOp → List AuctionEntityMongo
  | CoreOp.createAuction a storeFails => if storeFails then db else db ++ [a]
  | CoreOp.sweep nowNanos storeFails =>
    (closeExpiredAuctions auctionInterval nowNanos storeFails db).1

/-- Effect of a sequence of core operations on the collection. -/
def runCoreOps (auctionInterval : Int) (db : List AuctionEntityMongo) :
    List CoreOp → List AuctionEntityMongo
  | [] => db
  | op :: ops => runCoreOps auctionInterval (applyCoreOp auctionInterval db op) ops

@[simp]
theorem updateManyClose_length (t : Int) (db : List AuctionEntityMongo) :
    (updateManyClose t db).1.length = db.length := by
  simp [updateManyClose]

@[simp]
theorem closeExpiredAuctions_length (auctionInterval nowNanos : Int) (storeFails : Bool)
    (db : List AuctionEntityMongo) :
    (closeExpiredAuctions auctionInterval nowNanos storeFails db).1.length = db.length := by
  cases storeFails <;> simp [closeExpiredAuctions]

theorem closeExpiredAuctions_getElem (auctionInterval nowNanos : Int)
    (db : List AuctionEntityMongo) (k : Nat) (hk : k < db.length)
    (hk2 : k < (closeExpiredAuctions auctionInterval nowNanos false db).1.length) :
    (closeExpiredAuctions auctionInterval nowNanos false db).1[k]
      = if matchesCloseFilter (expirationThreshold nowNanos auctionInterval) db[k]
          then setCompleted db[k] else db[k] := by
  simp [closeExpiredAuctions, updateManyClose]

theorem matchesCloseFilter_eq_true_iff (t : Int) (a : AuctionEntityMongo) :
    matchesCloseFilter t a = true ↔ a.status = AuctionStatus.Active ∧ a.timestamp ≤ t := by
  simp [matchesCloseFilter]

/-- C1: one sweep at time `now` issues exactly one conditional batch
update (the single `UpdateMany` embedded in `closeExpiredAuctions`)
matching `status = Active ∧ timestamp ≤ now − interval` and setting
`status = Completed`; hence every entity that was Active with
`createdAt ≤ now − interval` is Completed after the sweep, the boundary
`createdAt = now − interval` included (`$lte`). -/
theorem sweep_closes_all_expired (auctionInterval nowNanos : Int)
    (db : List AuctionEntityMongo) (k : Nat) (hk : k < db.length)
    (hk2 : k < (closeExpiredAuctions auctionInterval nowNanos false db).1.length)
    (hact : db[k].status = AuctionStatus.Active)
    (hexp : db[k].timestamp ≤ expirationThreshold nowNanos auctionInterval) :
    (closeExpiredAuctions auctionInterval nowNanos false db).1[k].status
      = AuctionStatus.Completed := by
  rw [closeExpiredAuctions_getElem auctionInterval nowNanos db k hk hk2]
  have hm : matchesCloseFilter (expirationThreshold nowNanos auctionInterval) db[k] = true :=
    (matchesCloseFilter_eq_true_iff _ _).mpr ⟨hact, hexp⟩
  simp [hm, setCompleted]

/-- Concrete run of C1 at the boundary: interval 2s, now = 10s exactly,
threshold 8; an Active entity with timestamp 8 (age exactly the
interval) is transitioned. -/
theorem sweep_closes_all_expired_witness :
    ((closeExpiredAuctions (2 * timeSecond) (10 * timeSecond) false
        [⟨"a1", "p", "c", "d", 1, AuctionStatus.Active, 8⟩]).1.get ⟨0, by simp⟩).status
      = AuctionStatus.Completed :=
  sweep_closes_all_expired (2 * timeSecond) (10 * timeSecond)
    [⟨"a1", "p", "c", "d", 1, AuctionStatus.Active, 8⟩] 0 (by decide) (by decide)
    rfl (by decide)

/-- C2: the sweep never deletes an entity (the length is preserved) and
never changes any field other than `status`; an entity that does not
match the filter — in particular one with `createdAt > now − interval` —
is returned entirely unchanged, status included. -/
theorem sweep_frame (auctionInterval nowNanos : Int)
    (db : List AuctionEntityMongo) (k : Nat) (hk : k < db.length)
    (hk2 : k < (closeExpiredAuctions auctionInterval nowNanos false db).1.length) :
    (closeExpiredAuctions auctionInterval nowNanos false db).1.length = db.length ∧
    ((db[k].status ≠ AuctionStatus.Active ∨
        expirationThreshold nowNanos auctionInterval < db[k].timestamp) →
      (closeExpiredAuctions auctionInterval nowNanos false db).1[k] = db[k]) ∧
    (closeExpiredAuctions auctionInterval nowNanos false db).1[k].id = db[k].id ∧
    (closeExpiredAuctions auctionInterval nowNanos false db).1[k].productName
      = db[k].productName ∧
    (closeExpiredAuctions auctionInterval nowNanos false db).1[k].category = db[k].category ∧
    (closeExpiredAuctions auctionInterval nowNanos false db).1[k].description
      = db[k].description ∧
    (closeExpiredAuctions auctionInterval nowNanos false db).1[k].condition
      = db[k].condition ∧
    (closeExpiredAuctions auctionInterval nowNanos false db).1[k].timestamp
      = db[k].timestamp := by
  rw [closeExpiredAuctions_getElem auctionInterval nowNanos db k hk hk2]
  by_cases hm : matchesCloseFilter (expirationThreshold nowNanos auctionInterval) db[k] = true
  · refine ⟨by simp, ?_, by simp [hm, setCompleted], by simp [hm, setCompleted],
      by simp [hm, setCompleted], by simp [hm, setCompleted], by simp [hm, setCompleted],
      by simp [hm, setCompleted]⟩
    intro hcases
    rw [matchesCloseFilter_eq_true_iff] at hm
    rcases hcases with hne | hgt
    · exact absurd hm.1 hne
    · exact absurd hm.2 (not_le.mpr hgt)
  · exact ⟨by simp, fun _ => by simp [hm], by simp [hm], by simp [hm], by simp [hm],
      by simp [hm], by simp [hm], by simp [hm]⟩

/-- Concrete run of C2: a fresh Active entity (timestamp strictly above
the threshold) is returned entirely unchanged by the sweep. -/
theorem sweep_frame_witness :
    ((closeExpiredAuctions (2 * timeSecond) (10 * timeSecond) false
        [⟨"b1", "p", "c", "d", 2, AuctionStatus.Active, 10⟩]).1.get ⟨0, by simp⟩)
      = (⟨"b1", "p", "c", "d", 2, AuctionStatus.Active, 10⟩ : AuctionEntityMongo) :=
  (sweep_frame (2 * timeSecond) (10 * timeSecond)
      [⟨"b1", "p", "c", "d", 2, AuctionStatus.Active, 10⟩] 0 (by decide) (by simp)).2.1
    (Or.inr (by decide))

theorem applyCoreOp_length_le (auctionInterval : Int) (db : List AuctionEntityMongo)
    (op : CoreOp) : db.length ≤ (applyCoreOp auctionInterval db op).length := by
  cases op with
  | createAuction a storeFails => cases storeFails <;> simp [applyCoreOp]
  | sweep nowNanos storeFails => simp [applyCoreOp]

theorem runCoreOps_length_le (auctionInterval : Int) (ops : List CoreOp)
    (db : List AuctionEntityMongo) : db.length ≤ (runCoreOps auctionInterval db ops).length := by
  induction ops generalizing db with
  | nil => exact le_refl _
  | cons op ops ih =>
    exact le_trans (applyCoreOp_length_le auctionInterval db op) (ih _)

theorem applyCoreOp_status_step (auctionInterval : Int) (db : List AuctionEntityMongo)
    (op : CoreOp) (k : Nat) (hk : k < db.length)
    (hk2 : k < (applyCoreOp auctionInterval db op).length) :
    (applyCoreOp auctionInterval db op)[k].status = db[k].status ∨
    (db[k].status = AuctionStatus.Active ∧
      (applyCoreOp auctionInterval db op)[k].status = AuctionStatus.Completed) := by
  cases op with
  | createAuction a storeFails =>
    left
    cases storeFails with
    | true => simp [applyCoreOp]
    | false => simp [applyCoreOp, List.getElem_append, hk]
  | sweep nowNanos storeFails =>
    cases storeFails with
    | true => left; simp [applyCoreOp, closeExpiredAuctions]
    | false =>
      have hk3 : k < (closeExpiredAuctions auctionInterval nowNanos false db).1.length := by
        simpa using hk
      simp only [applyCoreOp]
      rw [closeExpiredAuctions_getElem auctionInterval nowNanos db k hk hk3]
      by_cases hm : matchesCloseFilter (expirationThreshold nowNanos auctionInterval)
          db[k] = true
      · right
        refine ⟨((matchesCloseFilter_eq_true_iff _ _).mp hm).1, ?_⟩
        simp [hm, setCompleted]
      · left; simp [hm]

/-- C3: status transitions are one-directional.  Over any sequence of
core operations (entity creations and sweeps, failing or not, in any
order), an entity's status either stays exactly what it was or moves
from Active to Completed; in particular a Completed entity never
reverts. -/
theorem status_transitions_one_directional (auctionInterval : Int) (ops : List CoreOp)
    (db : List AuctionEntityMongo) (k : Nat) (hk : k < db.length)
    (hk2 : k < (runCoreOps auctionInterval db ops).length) :
    (runCoreOps auctionInterval db ops)[k].status = db[k].status ∨
    (db[k].status = AuctionStatus.Active ∧
      (runCoreOps auctionInterval db ops)[k].status = AuctionStatus.Completed) := by
  induction ops generalizing db with
  | nil => exact Or.inl rfl
  | cons op ops ih =>
    have hk1 : k < (applyCoreOp auctionInterval db op).length :=
      lt_of_lt_of_le hk (applyCoreOp_length_le auctionInterval db op)
    have hrun : runCoreOps auctionInterval db (op :: ops)
        = runCoreOps auctionInterval (applyCoreOp auctionInterval db op) ops := rfl
    have hk2a : k < (runCoreOps auctionInterval (applyCoreOp auctionInterval db op) ops).length := by
      rw [← hrun]; exact hk2
    have hstep := applyCoreOp_status_step auctionInterval db op k hk hk1
    have hrest := ih (applyCoreOp auctionInterval db op) hk1 hk2a
    rcases hstep with hsame | ⟨hA, hC⟩
    · rcases hrest with h1 | ⟨h2, h3⟩
      · exact Or.inl (h1.trans hsame)
      · exact Or.inr ⟨hsame ▸ h2, h3⟩
    · rcases hrest with h1 | ⟨h2, h3⟩
      · exact Or.inr ⟨hA, h1.trans hC⟩
      · rw [hC] at h2; simp at h2

/-- Concrete run of C3: the one-directionality disjunction instantiated
on a concrete history (a sweep completing an expired entity, a creation,
a later sweep). -/
theorem status_transitions_one_directional_witness :
    ((runCoreOps (2 * timeSecond)
        [⟨"a1", "p", "c", "d", 1, AuctionStatus.Active, 8⟩]
        [CoreOp.sweep (10 * timeSecond) false,
         CoreOp.createAuction ⟨"a2", "q", "c", "d", 1, AuctionStatus.Active, 10⟩ false,
         CoreOp.sweep (20 * timeSecond) false]).get
        ⟨0, by simp [runCoreOps, applyCoreOp]⟩).status
      = (([⟨"a1", "p", "c", "d", 1, AuctionStatus.Active, 8⟩] :
          List AuctionEntityMongo).get ⟨0, by decide⟩).status ∨
    ((([⟨"a1", "p", "c", "d", 1, AuctionStatus.Active, 8⟩] :
          List AuctionEntityMongo).get ⟨0, by decide⟩).status = AuctionStatus.Active ∧
      ((runCoreOps (2 * timeSecond)
        [⟨"a1", "p", "c", "d", 1, AuctionStatus.Active, 8⟩]
        [CoreOp.sweep (10 * timeSecond) false,
         CoreOp.createAuction ⟨"a2", "q", "c", "d", 1, AuctionStatus.Active, 10⟩ false,
         CoreOp.sweep (20 * timeSecond) false]).get
        ⟨0, by simp [runCoreOps, applyCoreOp]⟩).status = AuctionStatus.Completed) :=
  status_transitions_one_directional (2 * timeSecond)
    [CoreOp.sweep (10 * timeSecond) false,
     CoreOp.createAuction ⟨"a2", "q", "c", "d", 1, AuctionStatus.Active, 10⟩ false,
     CoreOp.sweep (20 * timeSecond) false]
    [⟨"a1", "p", "c", "d", 1, AuctionStatus.Active, 8⟩] 0 (by decide)
    (by simp [runCoreOps, applyCoreOp])

theorem updateManyClose_no_rematch (t : Int) (db : List AuctionEntityMongo) :
    ∀ a ∈ (updateManyClose t db).1, matchesCloseFilter t a = false := by
  intro a ha
  simp only [updateManyClose, List.mem_map] at ha
  obtain ⟨b, _, rfl⟩ := ha
  by_cases hm : matchesCloseFilter t b = true
  · rw [if_pos hm]
    simp [matchesCloseFilter, setCompleted]
  · rw [if_neg hm]
    simpa using hm

theorem updateManyClose_of_no_match (t : Int) (db : List AuctionEntityMongo)
    (h : ∀ a ∈ db, matchesCloseFilter t a = false) : updateManyClose t db = (db, 0) := by
  unfold updateManyClose
  refine Prod.ext ?_ ?_
  · calc db.map (fun a => if matchesCloseFilter t a then setCompleted a else a)
        = db.map id := List.map_congr_left (fun a ha => by simp [h a ha])
      _ = db := List.map_id db
  · simp only [List.countP_eq_zero]
    intro a ha
    simp [h a ha]

/-- C4: the sweep is idempotent.  Running the sweep twice with the same
`now` and interval returns, on the second run, exactly the state the
first run produced together with a modified count of 0; and no sweep
ever changes an entity that is already Completed. -/
theorem sweep_idempotent (auctionInterval nowNanos : Int) (db : List AuctionEntityMongo) :
    closeExpiredAuctions auctionInterval nowNanos false
        ((closeExpiredAuctions auctionInterval nowNanos false db).1)
      = ((closeExpiredAuctions auctionInterval nowNanos false db).1, some 0) ∧
    ∀ (k : Nat) (hk : k < db.length)
      (hk2 : k < (closeExpiredAuctions auctionInterval nowNanos false db).1.length),
      db[k].status = AuctionStatus.Completed →
      (closeExpiredAuctions auctionInterval nowNanos false db).1[k] = db[k] := by
  constructor
  · have hno := updateManyClose_no_rematch (expirationThreshold nowNanos auctionInterval) db
    have h2 := updateManyClose_of_no_match (expirationThreshold nowNanos auctionInterval)
      (updateManyClose (expirationThreshold nowNanos auctionInterval) db).1 hno
    simp only [closeExpiredAuctions, Bool.false_eq_true, if_false, h2]
  · intro k hk hk2 hdone
    rw [closeExpiredAuctions_getElem auctionInterval nowNanos db k hk hk2]
    have hm : matchesCloseFilter (expirationThreshold nowNanos auctionInterval) db[k] = false := by
      simp [matchesCloseFilter, hdone]
    simp [hm]

/-- Concrete run of C4: with one expired and one fresh entity, the
second immediate sweep returns the first sweep's state and modified
count 0, and a Completed entity is untouched by a sweep. -/
theorem sweep_idempotent_witness :
    closeExpiredAuctions (2 * timeSecond) (10 * timeSecond) false
        ((closeExpiredAuctions (2 * timeSecond) (10 * timeSecond) false
          [⟨"a1", "p", "c", "d", 1, AuctionStatus.Active, 8⟩,
           ⟨"c1", "p", "c", "d", 1, AuctionStatus.Completed, 3⟩]).1)
      = ((closeExpiredAuctions (2 * timeSecond) (10 * timeSecond) false
          [⟨"a1", "p", "c", "d", 1, AuctionStatus.Active, 8⟩,
           ⟨"c1", "p", "c", "d", 1, AuctionStatus.Completed, 3⟩]).1, some 0) ∧
    (closeExpiredAuctions (2 * timeSecond) (10 * timeSecond) false
        [⟨"a1", "p", "c", "d", 1, AuctionStatus.Active, 8⟩,
         ⟨"c1", "p", "c", "d", 1, AuctionStatus.Completed, 3⟩]).1.get ⟨1, by simp⟩
      = (⟨"c1", "p", "c", "d", 1, AuctionStatus.Completed, 3⟩ : AuctionEntityMongo) := by
  have h := sweep_idempotent (2 * timeSecond) (10 * timeSecond)
    [⟨"a1", "p", "c", "d", 1, AuctionStatus.Active, 8⟩,
     ⟨"c1", "p", "c", "d", 1, AuctionStatus.Completed, 3⟩]
  exact ⟨h.1, h.2 1 (by decide) (by simp) (by decide)⟩

/-- C5: when the batch update fails, the sweep returns normally with no
modified count (the error is logged, not raised), every entity is left
exactly as it was, and the scheduler loop keeps running: the trace after
a failing tick continues exactly as if that tick's sweep had been a
no-op, each later tick being a fresh independent attempt. -/
theorem sweep_error_swallowed (auctionInterval nowNanos : Int)
    (db : List AuctionEntityMongo) (rest : List LoopEvent) :
    closeExpiredAuctions auctionInterval nowNanos true db = (db, none) ∧
    startAuctionCloser auctionInterval db (LoopEvent.tick nowNanos true :: rest)
      = startAuctionCloser auctionInterval db rest := by
  constructor
  · simp [closeExpiredAuctions]
  · show startAuctionCloser auctionInterval
        (closeExpiredAuctions auctionInterval nowNanos true db).1 rest
      = startAuctionCloser auctionInterval db rest
    simp [closeExpiredAuctions]

/-- C9: post-cancellation quiescence.  Once the loop observes `ctxDone`
it returns; however many further tick events occur afterwards, the
collection state is the one at cancellation time, so no further
transitions are ever performed. -/
theorem post_cancellation_quiescence (auctionInterval : Int)
    (db : List AuctionEntityMongo) (pre post : List LoopEvent)
    (hpre : LoopEvent.ctxDone ∉ pre) :
    startAuctionCloser auctionInterval db (pre ++ LoopEvent.ctxDone :: post)
      = startAuctionCloser auctionInterval db pre := by
  induction pre generalizing db with
  | nil => rfl
  | cons e pre ih =>
    cases e with
    | ctxDone => exact absurd (List.mem_cons_self _ _) hpre
    | tick nowNanos storeFails =>
      show startAuctionCloser auctionInterval
          (closeExpiredAuctions auctionInterval nowNanos storeFails db).1
          (pre ++ LoopEvent.ctxDone :: post)
        = _
      exact ih _ (fun hmem => hpre (List.mem_cons_of_mem _ hmem))

/-- Concrete run of C9: after a tick and a cancellation, two more ticks
change nothing. -/
theorem post_cancellation_quiescence_witness :
    startAuctionCloser (2 * timeSecond)
        [⟨"a1", "p", "c", "d", 1, AuctionStatus.Active, 8⟩]
        ([LoopEvent.tick (10 * timeSecond) false] ++ LoopEvent.ctxDone ::
          [LoopEvent.tick (100 * timeSecond) false, LoopEvent.tick (200 * timeSecond) false])
      = startAuctionCloser (2 * timeSecond)
          [⟨"a1", "p", "c", "d", 1, AuctionStatus.Active, 8⟩]
          [LoopEvent.tick (10 * timeSecond) false] :=
  post_cancellation_quiescence (2 * timeSecond)
    [⟨"a1", "p", "c", "d", 1, AuctionStatus.Active, 8⟩]
    [LoopEvent.tick (10 * timeSecond) false]
    [LoopEvent.tick (100 * timeSecond) false, LoopEvent.tick (200 * timeSecond) false]
    (by decide)

/-- C6: the interval resolver.  The absent value (`os.Getenv` returns
`""`) and every unparsable value resolve to exactly `time.Minute * 5`,
which is 300 seconds in nanoseconds; the resolver is a total function,
so it never raises an error to its caller. -/
theorem getAuctionInterval_default_five_minutes :
    getAuctionInterval "" = timeMinute * 5 ∧
    timeMinute * 5 = 300 * timeSecond ∧
    ∀ s : String, parseDuration s = none → getAuctionInterval s = timeMinute * 5 := by
  refine ⟨rfl, by norm_num [timeMinute, timeSecond], ?_⟩
  intro s hs
  simp [getAuctionInterval, hs]

/-- Concrete run of C6: an unparsable configured value resolves to the
5-minute default. -/
theorem getAuctionInterval_default_five_minutes_witness :
    getAuctionInterval "twenty-seconds" = timeMinute * 5 :=
  getAuctionInterval_default_five_minutes.2.2 "twenty-seconds" (by decide)

/-- C7: the loop's tick cadence is `max(interval / 2, 1s)` (with Go's
truncating `int64` division): exactly `interval / 2` when the interval
is at least 2 seconds, and exactly 1 second for every smaller (or zero,
or negative) interval. -/
theorem checkInterval_cadence (auctionInterval : Int) :
    checkInterval auctionInterval = max (Int.tdiv auctionInterval 2) timeSecond ∧
    (2 * timeSecond ≤ auctionInterval →
      checkInterval auctionInterval = Int.tdiv auctionInterval 2) ∧
    (auctionInterval < 2 * timeSecond → checkInterval auctionInterval = timeSecond) := by
  have key : Int.tdiv auctionInterval 2 < timeSecond ↔ auctionInterval < 2 * timeSecond := by
    rcases le_or_lt 0 auctionInterval with h0 | h0
    · rw [Int.tdiv_eq_ediv h0 (by norm_num)]
      simp only [timeSecond]
      omega
    · constructor
      · intro _
        simp only [timeSecond]
        omega
      · intro _
        have h1 : 0 ≤ Int.tdiv (-auctionInterval) 2 :=
          Int.tdiv_nonneg (by linarith) (by norm_num)
        have h2 : Int.tdiv (-auctionInterval) 2 = -(Int.tdiv auctionInterval 2) :=
          Int.neg_tdiv auctionInterval 2
        simp only [timeSecond] at *
        omega
  refine ⟨?_, ?_, ?_⟩
  · by_cases h : Int.tdiv auctionInterval 2 < timeSecond
    · rw [max_eq_right (le_of_lt h)]
      simp [checkInterval, h]
    · rw [max_eq_left (not_lt.mp h)]
      simp [checkInterval, h]
  · intro hge
    have h : ¬ Int.tdiv auctionInterval 2 < timeSecond := by
      rw [key]
      exact not_lt.mpr hge
    simp [checkInterval, h]
  · intro hlt
    have h : Int.tdiv auctionInterval 2 < timeSecond := key.mpr hlt
    simp [checkInterval, h]

/-- Concrete runs of C7: cadence for a 20-second interval is 10 seconds,
and for a 1-second interval the 1-second floor applies. -/
theorem checkInterval_cadence_witness :
    checkInterval (20 * timeSecond) = Int.tdiv (20 * timeSecond) 2 ∧
    checkInterval (1 * timeSecond) = timeSecond :=
  ⟨(checkInterval_cadence (20 * timeSecond)).2.1 (by norm_num [timeSecond]),
   (checkInterval_cadence (1 * timeSecond)).2.2 (by norm_num [timeSecond])⟩

/-- C10: the interval resolver returns every successfully parsed
duration unchanged — there is no positivity validation, so a zero or
negative configured duration (e.g. `"-5s"`) is accepted as the interval.
With any interval ≤ 0 the expiration threshold `now − interval` lies at
or after `now`, so every Active entity whose creation second is at most
the current second — including one created at this very instant — is
matched by the filter and transitioned to Completed by the sweep. -/
theorem no_positivity_validation (s : String) (d : Int)
    (hparse : parseDuration s = some d) :
    getAuctionInterval s = d ∧
    (∀ nowNanos : Int, d ≤ 0 → unixSeconds nowNanos ≤ expirationThreshold nowNanos d) ∧
    ∀ (nowNanos : Int) (db : List AuctionEntityMongo) (k : Nat) (hk : k < db.length)
      (hk2 : k < (closeExpiredAuctions d nowNanos false db).1.length),
      d ≤ 0 → db[k].status = AuctionStatus.Active →
      db[k].timestamp ≤ unixSeconds nowNanos →
      (closeExpiredAuctions d nowNanos false db).1[k].status = AuctionStatus.Completed := by
  have hth : ∀ nowNanos : Int, d ≤ 0 → unixSeconds nowNanos ≤ expirationThreshold nowNanos d := by
    intro nowNanos hd
    unfold expirationThreshold unixSeconds
    exact Int.ediv_le_ediv (by norm_num) (by linarith)
  refine ⟨by simp [getAuctionInterval, hparse], hth, ?_⟩
  intro nowNanos db k hk hk2 hd hact hts
  rw [closeExpiredAuctions_getElem d nowNanos db k hk hk2]
  have hm : matchesCloseFilter (expirationThreshold nowNanos d) db[k] = true :=
    (matchesCloseFilter_eq_true_iff _ _).mpr ⟨hact, le_trans hts (hth nowNanos hd)⟩
  simp [hm, setCompleted]

/-- Concrete run of C10: `"-5s"` resolves to −5s, and with that interval
an Active entity created at the current instant (timestamp = the current
second) is immediately transitioned by the sweep. -/
theorem no_positivity_validation_witness :
    getAuctionInterval "-5s" = -5000000000 ∧
    ((closeExpiredAuctions (-5000000000) (10 * timeSecond) false
        [⟨"n1", "p", "c", "d", 1, AuctionStatus.Active, 10⟩]).1.get ⟨0, by simp⟩).status
      = AuctionStatus.Completed := by
  have h := no_positivity_validation "-5s" (-5000000000) (by decide)
  exact ⟨h.1, h.2.2 (10 * timeSecond)
    [⟨"n1", "p", "c", "d", 1, AuctionStatus.Active, 10⟩]
    0 (by decide) (by simp) (by norm_num) rfl (by decide)⟩
